import Mathlib

/-!
Shallow embedding of the dual-file-parser repository (a TypeScript CSV/TSV
ingestion service) and proofs about its behaviour.

The embedding translates, from the source:
- `detectFileFormat`, `countRecords`, `convertValue`, `transformRow` and the
  row loop of `parseCSVStream` (src/parsers/csvParser.ts);
- `createDynamicSchema` (src/config/recordSchema.ts);
- the per-record batching callback and the final tail flush of
  `processParseJob`, and the job registry with its `setTimeout` eviction
  (src/server.ts).

External collaborators (the csv-parse tokenizer, the JavaScript primitives
`parseFloat`, `new Date`, `JSON.parse`, the store adapter, wall-clock time)
are modelled as explicit inputs: the tokenizer output is a list of rows
optionally followed by a structural error, the primitives are a record of
partial functions (`none` models NaN / an exception), store-write outcomes
and time-based flush triggers are Boolean oracles.  JavaScript numeric
literals are modelled exactly over `ℚ`.
-/

namespace DualFileParser

/-! ## Data model (src/types/schema.ts, src/types/csv.ts) -/

/-- File format kind: `'csv' | 'txt'`. -/
inductive FileFormat where
  | csv
  | txt
deriving DecidableEq, Repr

/-- Declared field types: `'string' | 'number' | 'boolean' | 'date' | 'json'`. -/
inductive FieldType where
  | string
  | number
  | boolean
  | date
  | json
deriving DecidableEq, Repr

/-- A JavaScript runtime value as produced by the coercion engine:
string, number, boolean, Date (epoch milliseconds), null, nested object,
or array (JSON.parse can yield arrays). -/
inductive JSValue where
  | null
  | str (s : String)
  | num (q : ℚ)
  | bool (b : Bool)
  | date (ms : Int)
  | obj (fields : List (String × JSValue))
  | arr (elems : List JSValue)

/-- Source: `value !== null`, negated. -/
def JSValue.isNull : JSValue → Bool
  | JSValue.null => true
  | _ => false

/-- A parsed record: a JavaScript object, i.e. an insertion-ordered map from
field names to values (keys unique, assignment overwrites in place). -/
abbrev ParsedObject := List (String × JSValue)

/-- The JavaScript primitives the coercion engine delegates to.
`none` models NaN (`parseFloat`), an invalid date (`new Date`), or a thrown
exception (`JSON.parse`); the engine itself never throws. -/
structure JSPrims where
  parseFloat : String → Option ℚ
  parseDate : String → Option Int
  parseJSON : String → Option JSValue

/-- Source: `ColumnSchema` from src/types/schema.ts; TypeScript optional fields are
`Option`s (`none` = `undefined`).  A `transform` is a caller-supplied
function that may throw (`Except.error`). -/
structure ColumnSchema where
  columnName : String
  fieldName : String
  type : Option FieldType := none
  required : Option Bool := none
  defaultValue : Option JSValue := none
  transform : Option (JSValue → Except Unit JSValue) := none

/-- Source: `NestedFieldSchema` from src/types/schema.ts. -/
structure NestedFieldSchema where
  fieldName : String
  columns : List ColumnSchema

/-- Source: `FileSchema` from src/types/schema.ts. -/
structure FileSchema where
  name : String
  columns : List ColumnSchema
  nestedFields : Option (List NestedFieldSchema) := none
  hasHeaders : Option Bool := none
  customHeaders : Option (List String) := none

/-- Source: `ParseError` from src/types (line number, offending column, message). -/
structure ParserError where
  line : Nat
  column : Option String := none
  message : String
  rawValue : Option String := none
  recoverable : Option Bool := none

/-- Source: `DetectedFormat` from src/types/csv.ts. -/
structure DetectedFormat where
  format : FileFormat
  delimiter : String
  hasHeaders : Bool
  sampleHeaders : Option (List String)
  confidence : ℚ

/-- An input file: its path and its content, `none` when `fs.readFileSync`
throws (unreadable file). -/
structure FileInput where
  path : String
  content : Option String

/-- Source: `ParseOptions` from src/types/schema.ts. -/
structure ParseOptions where
  delimiter : Option String := none
  quote : Option String := none
  escape : Option String := none
  skipEmptyLines : Option Bool := none
  trim : Option Bool := none
  maxRecords : Option Nat := none

/-! ## JavaScript string primitives

Models of the JavaScript string operations the source uses, implemented by
structural recursion over character lists so that concrete witnesses reduce
inside the kernel.  `slice` counts UTF-16 units and `trim`/`toLowerCase`
know the full Unicode tables; these models are exact on the ASCII inputs
the theorems use. -/

/-- Source: `s.slice(0, n)`. -/
def jsSlice (s : String) (n : Nat) : String :=
  String.mk (s.toList.take n)

/-- Source: `s.toLowerCase()`. -/
def jsToLower (s : String) : String :=
  String.mk (s.toList.map Char.toLower)

/-- Source: `s.trim()`. -/
def jsTrim (s : String) : String :=
  String.mk (((s.toList.dropWhile Char.isWhitespace).reverse.dropWhile
    Char.isWhitespace).reverse)

/-- Whether the second list starts with the first. -/
def startsWithList : List Char → List Char → Bool
  | [], _ => true
  | _ :: _, [] => false
  | p :: ps, c :: cs => p == c && startsWithList ps cs

/-- Worker for `jsSplit`: fuelled scan for separator occurrences (each step
consumes at least one character for a nonempty separator, so fuel
`length + 1` always suffices). -/
def jsSplitGo (sep : List Char) : Nat → List Char → List Char → List (List Char)
  | 0, l, acc => [acc.reverse ++ l]
  | fuel + 1, l, acc =>
    match l with
    | [] => [acc.reverse]
    | c :: rest =>
      if startsWithList sep (c :: rest) then
        acc.reverse :: jsSplitGo sep fuel ((c :: rest).drop sep.length) []
      else jsSplitGo sep fuel rest (c :: acc)

/-- Source: `s.split(sep)` for a nonempty string separator. -/
def jsSplit (s sep : String) : List String :=
  (jsSplitGo sep.toList (s.toList.length + 1) s.toList []).map String.mk

/-! ## Format detector (`detectFileFormat`, src/parsers/csvParser.ts lines 25-83) -/

/-- Number of occurrences of a character in a string
(`(line.match(/x/g) || []).length`). -/
def countCharIn (s : String) (c : Char) : Nat :=
  s.toList.count c

/-- The single-quote character, written by code point to keep the source
free of quote-literal pitfalls. -/
def singleQuote : Char := Char.ofNat 39

/-- Whether a character is a double or single quote. -/
def isQuoteChar (c : Char) : Bool :=
  c == '"' || c == singleQuote

/-- Source: `h.replace(/^["']|["']$/g, '')`: remove one leading and one trailing
quote character (double or single). -/
def stripEdgeQuotes (s : String) : String :=
  let l1 :=
    match s.toList with
    | [] => []
    | c :: rest => if isQuoteChar c then rest else c :: rest
  let l2 :=
    match l1.reverse with
    | [] => l1
    | c :: rest => if isQuoteChar c then rest.reverse else l1
  String.mk l2

/-- Source: `filePath.toLowerCase().split('.').pop() || ''`. -/
def extensionOf (path : String) : String :=
  (jsSplit (jsToLower path) ".").getLastD ""

/-- The first of the at most 5 lines of the 4096-character sample
(`sample.split('\n').slice(0, 5)`, then `lines[0]`); split of a string is
never empty, matching the always-true `lines.length > 0` check. -/
def sampledFirstLine (raw : String) : String :=
  ((jsSplit (jsSlice raw 4096) "\n").take 5).headD ""

/-- The extension-stage confidence: 0.7 for `.csv`, 0.5 otherwise. -/
def baseConfidenceOf (extension : String) : ℚ :=
  if extension = "csv" then 0.7 else 0.5

/-- Content-analysis delimiter choice:
`if (tabCount > 0 && tabCount >= commaCount)` tab,
`else if (commaCount > 0)` comma, else the extension-stage comma default. -/
def chosenDelimiter (tabCount commaCount : Nat) : String :=
  if tabCount > 0 ∧ tabCount ≥ commaCount then "\t"
  else if commaCount > 0 then ","
  else ","

/-- Content-analysis confidence, assigned by the same conditional as the
delimiter: `Math.min(0.95, 0.7 + (count / 10) * 0.25)` on the winning
count, the extension-stage value otherwise. -/
def chosenConfidence (tabCount commaCount : Nat) (base : ℚ) : ℚ :=
  if tabCount > 0 ∧ tabCount ≥ commaCount then
    min 0.95 (0.7 + ((tabCount : ℚ) / 10) * 0.25)
  else if commaCount > 0 then
    min 0.95 (0.7 + ((commaCount : ℚ) / 10) * 0.25)
  else base

/-- Source: `detectFileFormat(filePath)`: classify by extension, then sample up to
4096 characters, look at the first of at most 5 lines, count tabs and
commas, and pick the delimiter and a confidence score.  The catch branch
(unreadable file) returns the extension-stage defaults with no header
sample. -/
def detectFileFormat (input : FileInput) : DetectedFormat :=
  let extension := extensionOf input.path
  let format : FileFormat := if extension = "txt" then FileFormat.txt else FileFormat.csv
  match input.content with
  | none =>
    { format := format, delimiter := ",", hasHeaders := true,
      sampleHeaders := none, confidence := baseConfidenceOf extension }
  | some raw =>
    let firstLine := sampledFirstLine raw
    let tabCount := countCharIn firstLine '\t'
    let commaCount := countCharIn firstLine ','
    let delimiter := chosenDelimiter tabCount commaCount
    let confidence := chosenConfidence tabCount commaCount (baseConfidenceOf extension)
    let sampleHeaders := (jsSplit firstLine delimiter).map (fun h => stripEdgeQuotes (jsTrim h))
    { format := format, delimiter := delimiter, hasHeaders := true,
      sampleHeaders := some sampleHeaders, confidence := confidence }

/-- The caller-forced delimiter override
(`if (userDelimiter) { detectedFormat.delimiter = userDelimiter; }`,
src/server.ts); the empty string is falsy in JavaScript. -/
def applyUserDelimiter (fmt : DetectedFormat) (userDelimiter : Option String) : DetectedFormat :=
  match userDelimiter with
  | some d => if d = "" then fmt else { fmt with delimiter := d }
  | none => fmt

/-- Source: `createParseOptions(detected)` from src/parsers/csvParser.ts. -/
def createParseOptions (detected : DetectedFormat) : ParseOptions :=
  { delimiter := some detected.delimiter, skipEmptyLines := some true, trim := some true }

/-- The delimiter the tokenizer actually receives:
`const delimiter = options.delimiter || ','` in `parseCSVStream`. -/
def effectiveDelimiter (options : ParseOptions) : String :=
  match options.delimiter with
  | some d => if d = "" then "," else d
  | none => ","

/-! ## Dynamic schema (`createDynamicSchema`, src/config/recordSchema.ts) -/

/-- ASCII `[a-z0-9]`. -/
def isLowerAlnum (c : Char) : Bool :=
  decide (('a' ≤ c ∧ c ≤ 'z') ∨ ('0' ≤ c ∧ c ≤ '9'))

/-- Source: `.replace(/_+/g, '_')`: collapse runs of underscores. -/
def collapseUnderscores : List Char → List Char
  | [] => []
  | c :: rest =>
    match collapseUnderscores rest with
    | [] => [c]
    | d :: ds => if c = '_' ∧ d = '_' then d :: ds else c :: d :: ds

/-- Header sanitizer used by `createDynamicSchema`: lower-case, replace each
character outside `[a-z0-9]` with an underscore, collapse underscore runs,
strip one leading and one trailing underscore. -/
def sanitizeFieldName (header : String) : String :=
  let underscored := (jsToLower header).toList.map (fun c => if isLowerAlnum c then c else '_')
  let collapsed := collapseUnderscores underscored
  let t1 :=
    match collapsed with
    | [] => []
    | c :: rest => if c = '_' then rest else c :: rest
  let t2 :=
    match t1.reverse with
    | [] => t1
    | c :: rest => if c = '_' then rest.reverse else t1
  String.mk t2

/-- Source: `createDynamicSchema(headers)`: one string column per detected header. -/
def createDynamicSchema (headers : List String) : FileSchema :=
  { name := "dynamic"
    hasHeaders := some true
    columns := headers.map (fun header =>
      { columnName := header
        fieldName := sanitizeFieldName header
        type := some FieldType.string }) }

/-! ## Type coercion engine (`convertValue`, src/parsers/csvParser.ts lines 122-161) -/

/-- Source: `trimmed.replace(/,/g, '')`. -/
def stripCommas (s : String) : String :=
  String.mk (s.toList.filter (fun c => c != ','))

/-- Source: `defaultValue ?? null`: `none` models `undefined`. -/
def orNull (d : Option JSValue) : JSValue :=
  d.getD JSValue.null

/-- Source: `convertValue(value, type, defaultValue)`: trim, return the default for
an empty cell, otherwise coerce by declared type; every failure path yields
`defaultValue ?? null` rather than raising.  `type` arrives as an `Option`
because the column's declared type is optional; a missing type selects
`'string'` via the TypeScript default parameter. -/
def convertValue (prims : JSPrims) (value : String) (ty : FieldType)
    (defaultValue : Option JSValue) : JSValue :=
  let trimmed := jsTrim value
  if trimmed = "" then orNull defaultValue
  else
    match ty with
    | FieldType.string => JSValue.str trimmed
    | FieldType.number =>
      match prims.parseFloat (stripCommas trimmed) with
      | some q => JSValue.num q
      | none => orNull defaultValue
    | FieldType.boolean =>
      let lower := jsToLower trimmed
      if lower ∈ (["true", "yes", "1", "y", "t"] : List String) then JSValue.bool true
      else if lower ∈ (["false", "no", "0", "n", "f"] : List String) then JSValue.bool false
      else orNull defaultValue
    | FieldType.date =>
      match prims.parseDate trimmed with
      | some ms => JSValue.date ms
      | none => orNull defaultValue
    | FieldType.json =>
      match prims.parseJSON trimmed with
      | some v => v
      | none => orNull defaultValue

/-- Whether a runtime value inhabits a declared field type; any value is a
valid `json` value since `JSON.parse` may return any of them. -/
def hasFieldType : JSValue → FieldType → Bool
  | JSValue.str _, FieldType.string => true
  | JSValue.num _, FieldType.number => true
  | JSValue.bool _, FieldType.boolean => true
  | JSValue.date _, FieldType.date => true
  | _, FieldType.json => true
  | _, _ => false

/-! ## Row transformer (`transformRow`, src/parsers/csvParser.ts lines 166-263) -/

/-- Source: `Map.get` on a string-keyed map modelled as an ordered association list. -/
def mapGet (m : List (String × Nat)) (k : String) : Option Nat :=
  (m.find? (fun p => p.1 == k)).map (fun p => p.2)

/-- Source: `Map.set`: overwrite in place when the key exists, append otherwise. -/
def mapSet (m : List (String × Nat)) (k : String) (v : Nat) : List (String × Nat) :=
  if m.any (fun p => p.1 == k) then
    m.map (fun p => if p.1 == k then (k, v) else p)
  else m ++ [(k, v)]

/-- JavaScript object assignment `record[field] = v`: overwrite in place
when the key exists, append otherwise. -/
def setKey (o : ParsedObject) (k : String) (v : JSValue) : ParsedObject :=
  if o.any (fun p => p.1 == k) then
    o.map (fun p => if p.1 == k then (k, v) else p)
  else o ++ [(k, v)]

/-- Source: `row[index] || ''`: an out-of-range access yields `undefined`, which is
falsy, as is the empty string; every other string is truthy. -/
def jsIndex (row : List String) (i : Nat) : String :=
  row.getD i ""

/-- The result of transforming one row. -/
structure TransformResult where
  record : ParsedObject
  errors : List ParserError

/-- One iteration of the flat-column loop of `transformRow`. -/
def applyColumn (prims : JSPrims) (row : List String) (headerMap : List (String × Nat))
    (acc : TransformResult) (column : ColumnSchema) : TransformResult :=
  match mapGet headerMap (jsToLower column.columnName) with
  | none =>
    let errors :=
      if column.required.getD false then
        acc.errors ++ [{ line := 0, column := some column.columnName,
                         message := "Required column not found",
                         recoverable := some true }]
      else acc.errors
    let record :=
      match column.defaultValue with
      | some dv => setKey acc.record column.fieldName dv
      | none => acc.record
    { record := record, errors := errors }
  | some index =>
    let rawValue := jsIndex row index
    let converted := convertValue prims rawValue (column.type.getD FieldType.string)
      column.defaultValue
    let step :=
      match column.transform with
      | some f =>
        if converted.isNull then (converted, acc.errors)
        else
          match f converted with
          | Except.ok v => (v, acc.errors)
          | Except.error _ =>
            (converted, acc.errors ++ [({ line := 0, column := some column.columnName,
                                          message := "Transform error",
                                          rawValue := some rawValue,
                                          recoverable := some true } : ParserError)])
      | none => (converted, acc.errors)
    let record := if step.1.isNull then acc.record else setKey acc.record column.fieldName step.1
    { record := record, errors := step.2 }

/-- Accumulator for one nested-field group. -/
structure NestedAcc where
  nestedObj : ParsedObject
  hasValue : Bool
  errors : List ParserError

/-- One iteration of the inner loop over a nested group's columns
(no `required` check in the nested branch, matching the source). -/
def applyNestedColumn (prims : JSPrims) (row : List String) (headerMap : List (String × Nat))
    (acc : NestedAcc) (column : ColumnSchema) : NestedAcc :=
  match mapGet headerMap (jsToLower column.columnName) with
  | none =>
    match column.defaultValue with
    | some dv =>
      { acc with nestedObj := setKey acc.nestedObj column.fieldName dv, hasValue := true }
    | none => acc
  | some index =>
    let rawValue := jsIndex row index
    let converted := convertValue prims rawValue (column.type.getD FieldType.string)
      column.defaultValue
    let step :=
      match column.transform with
      | some f =>
        if converted.isNull then (converted, acc.errors)
        else
          match f converted with
          | Except.ok v => (v, acc.errors)
          | Except.error _ =>
            (converted, acc.errors ++ [({ line := 0, column := some column.columnName,
                                          message := "Transform error in nested field",
                                          rawValue := some rawValue,
                                          recoverable := some true } : ParserError)])
      | none => (converted, acc.errors)
    if step.1.isNull then { acc with errors := step.2 }
    else { nestedObj := setKey acc.nestedObj column.fieldName step.1, hasValue := true,
           errors := step.2 }

/-- One iteration of the nested-group loop: include the sub-object in the
parent record only when at least one sub-field produced a value. -/
def applyNestedGroup (prims : JSPrims) (row : List String) (headerMap : List (String × Nat))
    (acc : TransformResult) (nested : NestedFieldSchema) : TransformResult :=
  let res := nested.columns.foldl (applyNestedColumn prims row headerMap)
    { nestedObj := [], hasValue := false, errors := acc.errors }
  { record :=
      if res.hasValue then setKey acc.record nested.fieldName (JSValue.obj res.nestedObj)
      else acc.record
    errors := res.errors }

/-- Source: `transformRow(row, headerMap, schema)`. -/
def transformRow (prims : JSPrims) (row : List String) (headerMap : List (String × Nat))
    (schema : FileSchema) : TransformResult :=
  let flat := schema.columns.foldl (applyColumn prims row headerMap)
    { record := [], errors := [] }
  match schema.nestedFields with
  | some groups => groups.foldl (applyNestedGroup prims row headerMap) flat
  | none => flat

/-! ## Streaming parse pipeline (`parseCSVStream`, src/parsers/csvParser.ts lines 269-382)

The external csv-parse tokenizer is abstracted: its output is a list of
rows (each a list of cell strings) optionally followed by a structural
error.  A stream read error is funnelled into the same parser error channel
by the source (`stream.on('error', err => parser.emit('error', err))`). -/

/-- Header map construction from the first row:
`headerMap.set(header.toLowerCase().trim(), index)` per header. -/
def buildHeaderMap (row : List String) : List (String × Nat) :=
  row.enum.foldl (fun m p => mapSet m (jsTrim (jsToLower p.2)) p.1) []

/-- Header map from caller-supplied custom headers
(`headerMap.set(header.toLowerCase(), index)`; note: no trim). -/
def customHeaderMap (headers : List String) : List (String × Nat) :=
  headers.enum.foldl (fun m p => mapSet m (jsToLower p.2) p.1) []

/-- Positional header map (`headerMap.set(index.toString(), index)`). -/
def positionalHeaderMap (row : List String) : List (String × Nat) :=
  row.enum.foldl (fun m p => mapSet m (toString p.1) p.1) []

/-- The header map synthesized for a header-less schema on the first data
row: caller-supplied custom headers when present, positional indices
otherwise. -/
def synthHeaderMap (schema : FileSchema) (row : List String) : List (String × Nat) :=
  match schema.customHeaders with
  | some hs => customHeaderMap hs
  | none => positionalHeaderMap row

/-- Source: `if (maxRecords && recordCount >= maxRecords)`: a zero cap is falsy in
JavaScript and disables the check. -/
def capStops (maxRecords : Option Nat) (recordCount : Nat) : Bool :=
  match maxRecords with
  | some m => m != 0 && m ≤ recordCount
  | none => false

/-- The mutable state of the `parseCSVStream` row loop, plus the list of
records delivered to the per-record callback (with their line numbers). -/
structure PSState where
  headerMap : Option (List (String × Nat)) := none
  lineNumber : Nat := 0
  recordCount : Nat := 0
  stopped : Bool := false
  delivered : List (ParsedObject × Nat) := []

/-- Initial loop state. -/
def psInit : PSState := {}

/-- One iteration of the `while ((row = parser.read()) !== null)` loop:
returns the successor state and the record emitted to the callback this
iteration, if any.  Transform errors get their line numbers set and are
then dropped, exactly as in the source (they are never propagated). -/
def psStepE (prims : JSPrims) (schema : FileSchema) (maxRecords : Option Nat)
    (st : PSState) (row : List String) : PSState × Option (ParsedObject × Nat) :=
  if st.stopped then (st, none)
  else
    let ln := st.lineNumber + 1
    if schema.hasHeaders.getD true && st.headerMap.isNone then
      ({ st with lineNumber := ln, headerMap := some (buildHeaderMap row) }, none)
    else
      let hm := st.headerMap.getD (synthHeaderMap schema row)
      let st1 : PSState := { st with lineNumber := ln, headerMap := some hm }
      if capStops maxRecords st1.recordCount then
        ({ st1 with stopped := true }, none)
      else
        let tr := transformRow prims row hm schema
        if tr.record.isEmpty then (st1, none)
        else
          ({ st1 with recordCount := st1.recordCount + 1,
                      delivered := st1.delivered ++ [(tr.record, ln)] },
           some (tr.record, ln))

/-- The state component of one loop iteration. -/
def psStep (prims : JSPrims) (schema : FileSchema) (maxRecords : Option Nat)
    (st : PSState) (row : List String) : PSState :=
  (psStepE prims schema maxRecords st row).1

/-- The row loop over the whole tokenizer output. -/
def psRun (prims : JSPrims) (schema : FileSchema) (maxRecords : Option Nat)
    (rows : List (List String)) : PSState :=
  rows.foldl (psStep prims schema maxRecords) psInit

/-- One loop iteration together with the error log: when the callback
throws on the emitted record (`onRecordThrows`), the exception is caught,
logged (counted here) and the loop continues. -/
def psLogStep (prims : JSPrims) (schema : FileSchema) (maxRecords : Option Nat)
    (onRecordThrows : ParsedObject → Nat → Bool)
    (s : PSState × Nat) (row : List String) : PSState × Nat :=
  let r := psStepE prims schema maxRecords s.1 row
  (r.1,
   s.2 + match r.2 with
         | some (rcd, ln) => if onRecordThrows rcd ln then 1 else 0
         | none => 0)

/-- The row loop with the callback-failure log. -/
def psRunLog (prims : JSPrims) (schema : FileSchema) (maxRecords : Option Nat)
    (onRecordThrows : ParsedObject → Nat → Bool)
    (rows : List (List String)) : PSState × Nat :=
  rows.foldl (psLogStep prims schema maxRecords onRecordThrows) (psInit, 0)

/-- Settlement of the promise returned by `parseCSVStream`: `parser.end()`
after the cap stops the loop leads to the `end` event (resolve); otherwise
a structural tokenizer error rejects and normal exhaustion resolves. -/
def promiseOutcome (fin : PSState) (structuralError : Option String) : Except String Unit :=
  if fin.stopped then Except.ok ()
  else
    match structuralError with
    | some e => Except.error e
    | none => Except.ok ()

/-! ## Record counting pre-pass (`countRecords`, src/parsers/csvParser.ts lines 88-117) -/

/-- Source: `countRecords`: over the same tokenizer-row abstraction, skip the first
row (`isFirstLine`) and count every following row. -/
def countRecords (rows : List (List String)) : Nat :=
  (rows.foldl
    (fun acc _row => if acc.1 then (false, acc.2) else (false, acc.2 + 1))
    (true, 0)).2

/-! ## Batch accumulator (`processParseJob` callback, src/server.ts lines 655-700 and 728-735)

Only the batch-relevant statements of the per-record callback are modelled;
sample collection, progress reporting and the GC hook do not touch `batch`.
`Date.now()`-based flush timing is abstracted into a per-record Boolean
oracle (`timeDue`), and the outcome of each store write into an oracle
indexed by the number of writes issued so far (`dbOk`); both are
universally quantified in the theorems, covering every timing and every
success/failure pattern. -/

/-- Source: `const MAX_BATCH_SIZE = BATCH_SIZE * 2; // Safety limit`. -/
def MAX_BATCH_SIZE (batchSize : Nat) : Nat :=
  batchSize * 2

/-- One store write handed to `upsertRecordsBatch`: the payload, whether the
write succeeded, the value of the `batch` variable immediately after the
`try`/`catch` completed, and whether the flush was issued from inside the
per-record callback (`true`) or by the final tail flush (`false`). -/
structure FlushEvent where
  payload : List ParsedObject
  succeeded : Bool
  after : List ParsedObject
  inLoop : Bool

/-- The job-side state observed while records stream in: the `batch`
variable, the trace of `batch.length` at every observation point (callback
entry, after each statement that reassigns `batch`), all store writes, and
`recordCount`. -/
structure JobBatchState where
  batch : List ParsedObject := []
  obs : List Nat := []
  flushes : List FlushEvent := []
  recordCount : Nat := 0

/-- Initial job state. -/
def jobBatchInit : JobBatchState := {}

/-- A store write from inside the callback:
`try { await upsertRecordsBatch(batch, ...); batch = []; ... } catch { batch = []; }`
— both the success branch and the catch branch reassign `batch = []`. -/
def storeFlushInLoop (dbOk : Nat → Bool) (st : JobBatchState) : JobBatchState :=
  let ok := dbOk st.flushes.length
  let newBatch : List ParsedObject := if ok then [] else []
  let st1 : JobBatchState :=
    { st with batch := newBatch,
              flushes := st.flushes ++ [{ payload := st.batch, succeeded := ok,
                                          after := newBatch, inLoop := true }] }
  { st1 with obs := st1.obs ++ [st1.batch.length] }

/-- Callback entry: `recordCount++`, observing the batch length. -/
def cbEntry (st : JobBatchState) : JobBatchState :=
  { st with recordCount := st.recordCount + 1, obs := st.obs ++ [st.batch.length] }

/-- The safety check:
`if (batch.length >= MAX_BATCH_SIZE) { ... }` — a store write when the
database is enabled, a bare `batch = []` otherwise. -/
def cbSafety (useDb : Bool) (batchSize : Nat) (dbOk : Nat → Bool)
    (st : JobBatchState) : JobBatchState :=
  if st.batch.length ≥ MAX_BATCH_SIZE batchSize then
    if useDb then storeFlushInLoop dbOk st
    else
      let nb : List ParsedObject := []
      { st with batch := nb, obs := st.obs ++ [nb.length] }
  else st

/-- Source: `batch.push(record)`, observing the new length. -/
def cbPush (st : JobBatchState) (record : ParsedObject) : JobBatchState :=
  let b := st.batch ++ [record]
  { st with batch := b, obs := st.obs ++ [b.length] }

/-- The size/time flush:
`if (USE_DATABASE && (batch.length >= BATCH_SIZE || shouldFlushByTime))`. -/
def cbFlush (useDb : Bool) (batchSize : Nat) (dbOk : Nat → Bool) (timeDue : Bool)
    (st : JobBatchState) : JobBatchState :=
  let shouldFlushByTime := st.batch.length > 0 && timeDue
  if useDb && (decide (st.batch.length ≥ batchSize) || shouldFlushByTime) then
    storeFlushInLoop dbOk st
  else st

/-- One invocation of the per-record callback passed to `parseCSVStream`:
entry bookkeeping, safety flush, push, then the size/time flush, in source
order. -/
def recordCallbackStep (useDb : Bool) (batchSize : Nat) (dbOk : Nat → Bool)
    (timeDue : Bool) (st : JobBatchState) (record : ParsedObject) : JobBatchState :=
  cbFlush useDb batchSize dbOk timeDue
    (cbPush (cbSafety useDb batchSize dbOk (cbEntry st)) record)

/-- The final tail flush after the stream ends
(`if (USE_DATABASE && batch.length > 0) { try { await upsertRecordsBatch(batch, ...) } catch { ... } }`)
— neither branch reassigns `batch`. -/
def tailFlush (useDb : Bool) (dbOk : Nat → Bool) (st : JobBatchState) : JobBatchState :=
  if useDb && st.batch.length > 0 then
    let ok := dbOk st.flushes.length
    let st1 : JobBatchState :=
      { st with flushes := st.flushes ++ [{ payload := st.batch, succeeded := ok,
                                            after := st.batch, inLoop := false }] }
    { st1 with obs := st1.obs ++ [st1.batch.length] }
  else st

/-- Batch behaviour of a whole parse job: fold the callback over the
delivered records (each paired with its time-flush oracle value), then run
the tail flush. -/
def runJobBatch (useDb : Bool) (batchSize : Nat) (dbOk : Nat → Bool)
    (records : List (ParsedObject × Bool)) : JobBatchState :=
  tailFlush useDb dbOk
    (records.foldl (fun st p => recordCallbackStep useDb batchSize dbOk p.2 st p.1)
      jobBatchInit)

/-! ## Job registry (src/server.ts: `apiJobResults`, `JOB_RESULT_TTL`, the
`/api/parse` handler's `setTimeout` and `updateJobStatus`)

The registry entry of one API job is modelled by its event timeline:
`apiJobResults.set` at creation (time `t0`), a `Map.set` for every status
update (`updateJobStatus` re-inserts even after deletion, via
`apiJobResults.get(jobId) || {}`), and the single `Map.delete` fired by the
`setTimeout` scheduled at creation, `JOB_RESULT_TTL` later.  Writes commute
with each other, so only their order relative to the eviction matters; the
trace places updates before or after the timer by comparing times. -/

/-- Source: `const JOB_RESULT_TTL = 3600000; // Keep results for 1 hour`. -/
def JOB_RESULT_TTL : Nat := 3600000

/-- A registry event affecting one job's entry. -/
inductive RegEvent where
  | write (t : Nat)
  | evictTimer (t : Nat)

/-- The wall-clock time of an event. -/
def RegEvent.time : RegEvent → Nat
  | RegEvent.write t => t
  | RegEvent.evictTimer t => t

/-- Whether an event is the eviction timer. -/
def RegEvent.isEvict : RegEvent → Bool
  | RegEvent.write _ => false
  | RegEvent.evictTimer _ => true

/-- Effect of an event on entry presence: `Map.set` makes the entry
present, `Map.delete` removes it. -/
def applyRegEvent (_present : Bool) : RegEvent → Bool
  | RegEvent.write _ => true
  | RegEvent.evictTimer _ => false

/-- The execution-ordered event timeline of one job: creation write at
`t0`, status-update writes, and the eviction timer at `t0 + ttl` (scheduled
at creation), placed after exactly the updates that precede it in time. -/
def regTrace (t0 ttl : Nat) (updates : List Nat) : List RegEvent :=
  RegEvent.write t0 ::
    ((updates.filter (fun u => u < t0 + ttl)).map RegEvent.write ++
      RegEvent.evictTimer (t0 + ttl) ::
        (updates.filter (fun u => ¬ u < t0 + ttl)).map RegEvent.write)

/-- Whether the job's registry entry exists at time `t`: fold the events
that have happened by `t`. -/
def presentAt (t0 ttl : Nat) (updates : List Nat) (t : Nat) : Bool :=
  ((regTrace t0 ttl updates).filter (fun e => e.time ≤ t)).foldl applyRegEvent false

/-- The `/api/status/:jobId` handler: a poll finds the job exactly when the
entry exists (`if (!job) res.status(404)...`). -/
def statusPollFinds (t0 ttl : Nat) (updates : List Nat) (t : Nat) : Bool :=
  presentAt t0 ttl updates t

/-! ## Concrete instances used by witnesses and counterexamples -/

/-- A trivial primitive environment: every parse fails (NaN / invalid date
/ JSON exception). -/
def trivPrims : JSPrims :=
  { parseFloat := fun _ => none, parseDate := fun _ => none, parseJSON := fun _ => none }

/-- A primitive environment that parses the string "42". -/
def smallPrims : JSPrims :=
  { parseFloat := fun s => if s = "42" then some 42 else none
    parseDate := fun _ => none
    parseJSON := fun _ => none }

/-! ## Helper lemmas -/

/-- The delimiter override never touches the confidence field. -/
theorem applyUserDelimiter_confidence (fmt : DetectedFormat) (ud : Option String) :
    (applyUserDelimiter fmt ud).confidence = fmt.confidence := by
  unfold applyUserDelimiter
  cases ud with
  | none => rfl
  | some d => by_cases h : d = "" <;> simp [h]

/-- The delimiter override never touches the header sample. -/
theorem applyUserDelimiter_sampleHeaders (fmt : DetectedFormat) (ud : Option String) :
    (applyUserDelimiter fmt ud).sampleHeaders = fmt.sampleHeaders := by
  unfold applyUserDelimiter
  cases ud with
  | none => rfl
  | some d => by_cases h : d = "" <;> simp [h]

/-- A forced nonempty delimiter lands in the delimiter field. -/
theorem applyUserDelimiter_delimiter (fmt : DetectedFormat) (d : String) (hd : d ≠ "") :
    (applyUserDelimiter fmt (some d)).delimiter = d := by
  simp [applyUserDelimiter, hd]

/-- Delimiter of a readable input, as chosen by content analysis. -/
theorem detectFileFormat_delimiter_readable (path raw : String) :
    (detectFileFormat ⟨path, some raw⟩).delimiter =
      chosenDelimiter (countCharIn (sampledFirstLine raw) '\t')
        (countCharIn (sampledFirstLine raw) ',') := rfl

/-- Confidence of a readable input. -/
theorem detectFileFormat_confidence_readable (path raw : String) :
    (detectFileFormat ⟨path, some raw⟩).confidence =
      chosenConfidence (countCharIn (sampledFirstLine raw) '\t')
        (countCharIn (sampledFirstLine raw) ',')
        (baseConfidenceOf (extensionOf path)) := rfl

/-- Confidence of an unreadable input (the catch branch). -/
theorem detectFileFormat_confidence_unreadable (path : String) :
    (detectFileFormat ⟨path, none⟩).confidence =
      baseConfidenceOf (extensionOf path) := rfl

/-- Bounds of the count-scaled confidence branch. -/
theorem confBranch_bounds (n : Nat) :
    (1 / 2 : ℚ) ≤ min 0.95 (0.7 + ((n : ℚ) / 10) * 0.25) ∧
      min 0.95 (0.7 + ((n : ℚ) / 10) * 0.25) ≤ 19 / 20 := by
  have h0 : (0 : ℚ) ≤ ((n : ℚ) / 10) * 0.25 := by positivity
  constructor
  · refine le_min (by norm_num) ?_
    have : (0.7 : ℚ) = 7 / 10 := by norm_num
    linarith
  · exact le_trans (min_le_left _ _) (by norm_num)

/-- Bounds of the extension-stage confidence. -/
theorem baseConfidenceOf_bounds (e : String) :
    (1 / 2 : ℚ) ≤ baseConfidenceOf e ∧ baseConfidenceOf e ≤ 19 / 20 := by
  unfold baseConfidenceOf
  split_ifs <;> norm_num

/-- Bounds of the content-analysis confidence. -/
theorem chosenConfidence_bounds (t c : Nat) (base : ℚ)
    (hb : (1 / 2 : ℚ) ≤ base ∧ base ≤ 19 / 20) :
    (1 / 2 : ℚ) ≤ chosenConfidence t c base ∧ chosenConfidence t c base ≤ 19 / 20 := by
  unfold chosenConfidence
  split_ifs
  · exact confBranch_bounds t
  · exact confBranch_bounds c
  · exact hb

/-- Confidence bounds of the detector. -/
theorem detectFileFormat_confidence_bounds (input : FileInput) :
    (1 / 2 : ℚ) ≤ (detectFileFormat input).confidence ∧
      (detectFileFormat input).confidence ≤ 19 / 20 := by
  obtain ⟨path, content⟩ := input
  cases content with
  | none =>
    rw [detectFileFormat_confidence_unreadable]
    exact baseConfidenceOf_bounds _
  | some raw =>
    rw [detectFileFormat_confidence_readable]
    exact chosenConfidence_bounds _ _ _ (baseConfidenceOf_bounds _)

/-! ## C8: delimiter choice by candidate counting -/

/-- C8 counterexample: on a first line with a nonzero tie (one comma, one
tab) the code chooses the tab delimiter, while the claim says a nonzero tie
defaults to comma. -/
theorem C8_counterexample :
    (detectFileFormat ⟨"f.txt", some "a,b\tc"⟩).delimiter = "\t" ∧
      countCharIn "a,b\tc" ',' = countCharIn "a,b\tc" '\t' ∧
      0 < countCharIn "a,b\tc" ',' := by
  refine ⟨by decide, by decide, by decide⟩

/-- C8 (amended): `detectFileFormat` counts commas and tabs in the first
sampled line; the candidate with the strictly higher nonzero count wins,
comma is the default when no candidate character is present, and a nonzero
tie is won by tab (not comma). -/
theorem C8_delimiter_choice (path raw : String) :
    (countCharIn (sampledFirstLine raw) '\t' > countCharIn (sampledFirstLine raw) ',' →
      (detectFileFormat ⟨path, some raw⟩).delimiter = "\t") ∧
    (countCharIn (sampledFirstLine raw) ',' > countCharIn (sampledFirstLine raw) '\t' →
      (detectFileFormat ⟨path, some raw⟩).delimiter = ",") ∧
    (countCharIn (sampledFirstLine raw) '\t' = 0 →
      countCharIn (sampledFirstLine raw) ',' = 0 →
      (detectFileFormat ⟨path, some raw⟩).delimiter = ",") ∧
    (countCharIn (sampledFirstLine raw) '\t' = countCharIn (sampledFirstLine raw) ',' →
      0 < countCharIn (sampledFirstLine raw) '\t' →
      (detectFileFormat ⟨path, some raw⟩).delimiter = "\t") := by
  rw [detectFileFormat_delimiter_readable]
  unfold chosenDelimiter
  refine ⟨fun h => ?_, fun h => ?_, fun h h' => ?_, fun h h' => ?_⟩ <;>
    split_ifs with h1 h2 <;> first | rfl | omega

/-- C8 witness: the amended theorem evaluated at a comma-majority line. -/
theorem C8_delimiter_choice_witness :
    (detectFileFormat ⟨"f.csv", some "a,b,c\nx"⟩).delimiter = "," :=
  (C8_delimiter_choice "f.csv" "a,b,c\nx").2.1 (by decide)

/-! ## C9: headers always assumed -/

/-- A stopped loop ignores further rows. -/
theorem psStepE_stopped (prims : JSPrims) (schema : FileSchema) (mr : Option Nat)
    (st : PSState) (row : List String) (h : st.stopped = true) :
    psStepE prims schema mr st row = (st, none) := by
  unfold psStepE
  simp [h]

/-- The first row under a headers-present schema builds the header map and
emits nothing. -/
theorem psStepE_header (prims : JSPrims) (schema : FileSchema) (mr : Option Nat)
    (st : PSState) (row : List String) (h0 : st.stopped = false)
    (h1 : schema.hasHeaders.getD true = true) (h2 : st.headerMap = none) :
    psStepE prims schema mr st row =
      ({ st with lineNumber := st.lineNumber + 1,
                 headerMap := some (buildHeaderMap row) }, none) := by
  unfold psStepE
  simp [h0, h1, h2]

/-- A data row while the cap is reached stops the loop. -/
theorem psStepE_data_stop (prims : JSPrims) (schema : FileSchema) (mr : Option Nat)
    (st : PSState) (row : List String) (m : List (String × Nat))
    (h0 : st.stopped = false) (h2 : st.headerMap = some m)
    (h3 : capStops mr st.recordCount = true) :
    psStepE prims schema mr st row =
      ({ st with lineNumber := st.lineNumber + 1, headerMap := some m,
                 stopped := true }, none) := by
  unfold psStepE
  simp [h0, h2, h3]

/-- A data row transforming to an empty record is skipped. -/
theorem psStepE_data_empty (prims : JSPrims) (schema : FileSchema) (mr : Option Nat)
    (st : PSState) (row : List String) (m : List (String × Nat))
    (h0 : st.stopped = false) (h2 : st.headerMap = some m)
    (h3 : capStops mr st.recordCount = false)
    (h4 : (transformRow prims row m schema).record.isEmpty = true) :
    psStepE prims schema mr st row =
      ({ st with lineNumber := st.lineNumber + 1, headerMap := some m }, none) := by
  unfold psStepE
  simp [h0, h2, h3, h4]

/-- A data row transforming to a nonempty record is delivered. -/
theorem psStepE_data_emit (prims : JSPrims) (schema : FileSchema) (mr : Option Nat)
    (st : PSState) (row : List String) (m : List (String × Nat))
    (h0 : st.stopped = false) (h2 : st.headerMap = some m)
    (h3 : capStops mr st.recordCount = false)
    (h4 : (transformRow prims row m schema).record.isEmpty = false) :
    psStepE prims schema mr st row =
      ({ st with lineNumber := st.lineNumber + 1, headerMap := some m,
                 recordCount := st.recordCount + 1,
                 delivered := st.delivered ++
                   [((transformRow prims row m schema).record, st.lineNumber + 1)] },
       some ((transformRow prims row m schema).record, st.lineNumber + 1)) := by
  unfold psStepE
  simp [h0, h2, h3, h4]

/-- Every non-header step keeps the header map, and any state whose header
map is set has consumed at least one line; deliveries therefore carry line
numbers at least 2. -/
theorem psStep_C9_inv (prims : JSPrims) (schema : FileSchema) (mr : Option Nat)
    (hh : schema.hasHeaders ≠ some false) (st : PSState) (row : List String)
    (h1 : st.headerMap.isSome → 1 ≤ st.lineNumber)
    (h2 : ∀ p ∈ st.delivered, 2 ≤ p.2) :
    ((psStep prims schema mr st row).headerMap.isSome →
        1 ≤ (psStep prims schema mr st row).lineNumber) ∧
      ∀ p ∈ (psStep prims schema mr st row).delivered, 2 ≤ p.2 := by
  have hgetD : schema.hasHeaders.getD true = true := by
    cases hb : schema.hasHeaders with
    | none => rfl
    | some b =>
      cases b with
      | false => exact absurd hb hh
      | true => rfl
  unfold psStep
  cases hstop : st.stopped with
  | true =>
    rw [psStepE_stopped prims schema mr st row hstop]
    exact ⟨h1, h2⟩
  | false =>
    cases hm : st.headerMap with
    | none =>
      rw [psStepE_header prims schema mr st row hstop hgetD hm]
      exact ⟨fun _ => Nat.succ_le_succ (Nat.zero_le _), h2⟩
    | some m =>
      have hln : 1 ≤ st.lineNumber := h1 (by rw [hm]; rfl)
      cases hcap : capStops mr st.recordCount with
      | true =>
        rw [psStepE_data_stop prims schema mr st row m hstop hm hcap]
        exact ⟨fun _ => Nat.succ_le_succ (Nat.zero_le _), h2⟩
      | false =>
        cases hemp : (transformRow prims row m schema).record.isEmpty with
        | true =>
          rw [psStepE_data_empty prims schema mr st row m hstop hm hcap hemp]
          exact ⟨fun _ => Nat.succ_le_succ (Nat.zero_le _), h2⟩
        | false =>
          rw [psStepE_data_emit prims schema mr st row m hstop hm hcap hemp]
          refine ⟨fun _ => Nat.succ_le_succ (Nat.zero_le _), ?_⟩
          intro p hp
          rcases List.mem_append.mp hp with hp | hp
          · exact h2 p hp
          · rw [List.mem_singleton] at hp
            subst hp
            show 2 ≤ st.lineNumber + 1
            omega

/-- The invariant of `psStep_C9_inv` folded over any row list. -/
theorem psRun_C9_aux (prims : JSPrims) (schema : FileSchema) (mr : Option Nat)
    (hh : schema.hasHeaders ≠ some false) :
    ∀ (rows : List (List String)) (st : PSState),
      (st.headerMap.isSome → 1 ≤ st.lineNumber) →
      (∀ p ∈ st.delivered, 2 ≤ p.2) →
      ∀ p ∈ (rows.foldl (psStep prims schema mr) st).delivered, 2 ≤ p.2 := by
  intro rows
  induction rows with
  | nil => intro st _ h2; simpa using h2
  | cons r rs ih =>
    intro st h1 h2
    have hstep := psStep_C9_inv prims schema mr hh st r h1 h2
    simpa using ih (psStep prims schema mr st r) hstep.1 hstep.2

/-- C9: `detectFileFormat` reports `hasHeaders = true` for every input,
readable or not, and downstream any schema that does not explicitly negate
headers makes the pipeline consume the first row as the header row: every
record delivered to the callback carries line number at least 2. -/
theorem C9_headers_assumed (input : FileInput) (prims : JSPrims) (schema : FileSchema)
    (mr : Option Nat) (rows : List (List String)) :
    (detectFileFormat input).hasHeaders = true ∧
      (schema.hasHeaders ≠ some false →
        ∀ p ∈ (psRun prims schema mr rows).delivered, 2 ≤ p.2) := by
  constructor
  · obtain ⟨path, content⟩ := input
    cases content <;> rfl
  · intro hh
    exact psRun_C9_aux prims schema mr hh rows psInit (by simp [psInit]) (by simp [psInit])

/-- C9 witness: the theorem evaluated on a two-row comma file with the
dynamic schema; the single delivered record comes from line 2. -/
theorem C9_headers_assumed_witness :
    (detectFileFormat ⟨"w.csv", some "a,b\n1,2"⟩).hasHeaders = true ∧
      ∀ p ∈ (psRun trivPrims (createDynamicSchema ["a", "b"]) none
        [["a", "b"], ["1", "2"]]).delivered, 2 ≤ p.2 := by
  have h := C9_headers_assumed ⟨"w.csv", some "a,b\n1,2"⟩ trivPrims
    (createDynamicSchema ["a", "b"]) none [["a", "b"], ["1", "2"]]
  exact ⟨h.1, h.2 (by decide)⟩

/-! ## C10: confidence stays in [0.5, 0.95] even under override -/

/-- C10: for every input (readable or not) and every optional caller
override, the resulting confidence equals the detector's, lies in
[1/2, 19/20], and in particular is never 1. -/
theorem C10_confidence_bounds (input : FileInput) (ud : Option String) :
    (1 / 2 : ℚ) ≤ (applyUserDelimiter (detectFileFormat input) ud).confidence ∧
      (applyUserDelimiter (detectFileFormat input) ud).confidence ≤ 19 / 20 ∧
      (applyUserDelimiter (detectFileFormat input) ud).confidence =
        (detectFileFormat input).confidence ∧
      (applyUserDelimiter (detectFileFormat input) ud).confidence < 1 := by
  have hpres := applyUserDelimiter_confidence (detectFileFormat input) ud
  have hbounds := detectFileFormat_confidence_bounds input
  refine ⟨?_, ?_, hpres, ?_⟩
  · rw [hpres]; exact hbounds.1
  · rw [hpres]; exact hbounds.2
  · rw [hpres]
    calc (detectFileFormat input).confidence ≤ 19 / 20 := hbounds.2
      _ < 1 := by norm_num

/-! ## C5: coercion never raises and yields a typed value or the default -/

/-- An empty-after-trim cell always yields the default. -/
theorem convertValue_empty (prims : JSPrims) (v : String) (ty : FieldType)
    (dflt : Option JSValue) (h : jsTrim v = "") :
    convertValue prims v ty dflt = orNull dflt := by
  unfold convertValue
  simp [h]

/-- C5: `convertValue` is a total function (the Lean model of "never
throws"); for every input string, declared type and default it returns
either a value of the declared type or `defaultValue ?? null`, and in
particular an unparsable number, an unrecognized boolean, an invalid date
or malformed JSON each yield the default.  The theorem quantifies over all
behaviours of the JavaScript primitives. -/
theorem C5_convertValue_total (prims : JSPrims) (v : String) (ty : FieldType)
    (dflt : Option JSValue) :
    (hasFieldType (convertValue prims v ty dflt) ty = true ∨
      convertValue prims v ty dflt = orNull dflt) ∧
    (ty = FieldType.number → prims.parseFloat (stripCommas (jsTrim v)) = none →
      convertValue prims v ty dflt = orNull dflt) ∧
    (ty = FieldType.boolean →
      jsToLower (jsTrim v) ∉ (["true", "yes", "1", "y", "t"] : List String) →
      jsToLower (jsTrim v) ∉ (["false", "no", "0", "n", "f"] : List String) →
      convertValue prims v ty dflt = orNull dflt) ∧
    (ty = FieldType.date → prims.parseDate (jsTrim v) = none →
      convertValue prims v ty dflt = orNull dflt) ∧
    (ty = FieldType.json → prims.parseJSON (jsTrim v) = none →
      convertValue prims v ty dflt = orNull dflt) := by
  by_cases h0 : jsTrim v = ""
  · exact ⟨Or.inr (convertValue_empty prims v ty dflt h0),
      fun _ _ => convertValue_empty prims v ty dflt h0,
      fun _ _ _ => convertValue_empty prims v ty dflt h0,
      fun _ _ => convertValue_empty prims v ty dflt h0,
      fun _ _ => convertValue_empty prims v ty dflt h0⟩
  · cases ty with
    | string =>
      refine ⟨Or.inl ?_, ?_, ?_, ?_, ?_⟩
      · simp [convertValue, h0, hasFieldType]
      · intro h; exact absurd h (by decide)
      · intro h; exact absurd h (by decide)
      · intro h; exact absurd h (by decide)
      · intro h; exact absurd h (by decide)
    | number =>
      refine ⟨?_, ?_, ?_, ?_, ?_⟩
      · unfold convertValue
        simp only [h0, if_false]
        cases hpf : prims.parseFloat (stripCommas (jsTrim v)) with
        | none => exact Or.inr (by simp)
        | some q => exact Or.inl (by simp [hasFieldType])
      · intro _ hnone
        unfold convertValue
        simp [h0, hnone]
      · intro h; exact absurd h (by decide)
      · intro h; exact absurd h (by decide)
      · intro h; exact absurd h (by decide)
    | boolean =>
      refine ⟨?_, ?_, ?_, ?_, ?_⟩
      · unfold convertValue
        simp only [h0, if_false]
        by_cases ht : jsToLower (jsTrim v) ∈ (["true", "yes", "1", "y", "t"] : List String)
        · exact Or.inl (by simp [ht, hasFieldType])
        · by_cases hf :
            jsToLower (jsTrim v) ∈ (["false", "no", "0", "n", "f"] : List String)
          · exact Or.inl (by simp [ht, hf, hasFieldType])
          · exact Or.inr (by simp [ht, hf])
      · intro h; exact absurd h (by decide)
      · intro _ ht hf
        unfold convertValue
        simp [h0, ht, hf]
      · intro h; exact absurd h (by decide)
      · intro h; exact absurd h (by decide)
    | date =>
      refine ⟨?_, ?_, ?_, ?_, ?_⟩
      · unfold convertValue
        simp only [h0, if_false]
        cases hpd : prims.parseDate (jsTrim v) with
        | none => exact Or.inr (by simp)
        | some ms => exact Or.inl (by simp [hasFieldType])
      · intro h; exact absurd h (by decide)
      · intro h; exact absurd h (by decide)
      · intro _ hnone
        unfold convertValue
        simp [h0, hnone]
      · intro h; exact absurd h (by decide)
    | json =>
      refine ⟨?_, ?_, ?_, ?_, ?_⟩
      · unfold convertValue
        simp only [h0, if_false]
        cases hpj : prims.parseJSON (jsTrim v) with
        | none => exact Or.inr (by simp)
        | some w => exact Or.inl (by cases w <;> simp [hasFieldType])
      · intro h; exact absurd h (by decide)
      · intro h; exact absurd h (by decide)
      · intro h; exact absurd h (by decide)
      · intro _ hnone
        unfold convertValue
        simp [h0, hnone]

/-- C5 witness: the unparsable number "abc" with no default coerces to
null. -/
theorem C5_convertValue_total_witness :
    convertValue trivPrims "abc" FieldType.number none = JSValue.null :=
  (C5_convertValue_total trivPrims "abc" FieldType.number none).2.1 rfl rfl

/-! ## Step equations for `psStep` and fold lemmas -/

/-- A schema that does not declare `hasHeaders: false` defaults to headers
present (`schema.hasHeaders !== false`). -/
theorem hasHeaders_getD_true {schema : FileSchema} (hs : schema.hasHeaders ≠ some false) :
    schema.hasHeaders.getD true = true := by
  cases hb : schema.hasHeaders with
  | none => rfl
  | some b =>
    cases b with
    | false => exact absurd hb hs
    | true => rfl

/-- State form of `psStepE_stopped`. -/
theorem psStep_stopped (prims : JSPrims) (schema : FileSchema) (mr : Option Nat)
    (st : PSState) (row : List String) (h : st.stopped = true) :
    psStep prims schema mr st row = st := by
  unfold psStep
  rw [psStepE_stopped prims schema mr st row h]

/-- State form of `psStepE_header`. -/
theorem psStep_header (prims : JSPrims) (schema : FileSchema) (mr : Option Nat)
    (st : PSState) (row : List String) (h0 : st.stopped = false)
    (h1 : schema.hasHeaders.getD true = true) (h2 : st.headerMap = none) :
    psStep prims schema mr st row =
      { st with lineNumber := st.lineNumber + 1,
                headerMap := some (buildHeaderMap row) } := by
  unfold psStep
  rw [psStepE_header prims schema mr st row h0 h1 h2]

/-- State form of `psStepE_data_stop`. -/
theorem psStep_data_stop (prims : JSPrims) (schema : FileSchema) (mr : Option Nat)
    (st : PSState) (row : List String) (m : List (String × Nat))
    (h0 : st.stopped = false) (h2 : st.headerMap = some m)
    (h3 : capStops mr st.recordCount = true) :
    psStep prims schema mr st row =
      { st with lineNumber := st.lineNumber + 1, headerMap := some m,
                stopped := true } := by
  unfold psStep
  rw [psStepE_data_stop prims schema mr st row m h0 h2 h3]

/-- State form of `psStepE_data_empty`. -/
theorem psStep_data_empty (prims : JSPrims) (schema : FileSchema) (mr : Option Nat)
    (st : PSState) (row : List String) (m : List (String × Nat))
    (h0 : st.stopped = false) (h2 : st.headerMap = some m)
    (h3 : capStops mr st.recordCount = false)
    (h4 : (transformRow prims row m schema).record.isEmpty = true) :
    psStep prims schema mr st row =
      { st with lineNumber := st.lineNumber + 1, headerMap := some m } := by
  unfold psStep
  rw [psStepE_data_empty prims schema mr st row m h0 h2 h3 h4]

/-- State form of `psStepE_data_emit`. -/
theorem psStep_data_emit (prims : JSPrims) (schema : FileSchema) (mr : Option Nat)
    (st : PSState) (row : List String) (m : List (String × Nat))
    (h0 : st.stopped = false) (h2 : st.headerMap = some m)
    (h3 : capStops mr st.recordCount = false)
    (h4 : (transformRow prims row m schema).record.isEmpty = false) :
    psStep prims schema mr st row =
      { st with lineNumber := st.lineNumber + 1, headerMap := some m,
                recordCount := st.recordCount + 1,
                delivered := st.delivered ++
                  [((transformRow prims row m schema).record, st.lineNumber + 1)] } := by
  unfold psStep
  rw [psStepE_data_emit prims schema mr st row m h0 h2 h3 h4]

/-- Non-header steps reduced to their three outcomes without assuming how
the header map arose. -/
theorem psStepE_nonheader (prims : JSPrims) (schema : FileSchema) (mr : Option Nat)
    (st : PSState) (row : List String) (h0 : st.stopped = false)
    (hc : (schema.hasHeaders.getD true && st.headerMap.isNone) = false) :
    psStepE prims schema mr st row =
      (if capStops mr st.recordCount then
        ({ st with lineNumber := st.lineNumber + 1,
                   headerMap := some (st.headerMap.getD (synthHeaderMap schema row)),
                   stopped := true }, none)
      else if (transformRow prims row (st.headerMap.getD (synthHeaderMap schema row))
          schema).record.isEmpty then
        ({ st with lineNumber := st.lineNumber + 1,
                   headerMap := some (st.headerMap.getD (synthHeaderMap schema row)) }, none)
      else
        ({ st with lineNumber := st.lineNumber + 1,
                   headerMap := some (st.headerMap.getD (synthHeaderMap schema row)),
                   recordCount := st.recordCount + 1,
                   delivered := st.delivered ++
                     [((transformRow prims row
                         (st.headerMap.getD (synthHeaderMap schema row)) schema).record,
                       st.lineNumber + 1)] },
         some ((transformRow prims row
             (st.headerMap.getD (synthHeaderMap schema row)) schema).record,
           st.lineNumber + 1))) := by
  unfold psStepE
  simp [h0, hc]

/-- Every loop iteration either leaves the delivery count unchanged or,
when the cap has not stopped it, delivers exactly one more record. -/
theorem psStep_count_shape (prims : JSPrims) (schema : FileSchema) (mr : Option Nat)
    (st : PSState) (row : List String) :
    ((psStep prims schema mr st row).recordCount = st.recordCount ∧
      (psStep prims schema mr st row).delivered = st.delivered) ∨
    (capStops mr st.recordCount = false ∧
      (psStep prims schema mr st row).recordCount = st.recordCount + 1 ∧
      ∃ d, (psStep prims schema mr st row).delivered = st.delivered ++ [d]) := by
  cases hstop : st.stopped with
  | true =>
    rw [psStep_stopped prims schema mr st row hstop]
    exact Or.inl ⟨rfl, rfl⟩
  | false =>
    cases hcond : (schema.hasHeaders.getD true && st.headerMap.isNone) with
    | true =>
      rw [psStep_header prims schema mr st row hstop
        (Bool.and_eq_true_iff.mp hcond).1
        (Option.isNone_iff_eq_none.mp (Bool.and_eq_true_iff.mp hcond).2)]
      exact Or.inl ⟨rfl, rfl⟩
    | false =>
      unfold psStep
      rw [psStepE_nonheader prims schema mr st row hstop hcond]
      split_ifs with hcap hemp
      · exact Or.inl ⟨rfl, rfl⟩
      · exact Or.inl ⟨rfl, rfl⟩
      · right
        refine ⟨by simpa using hcap, rfl, ⟨_, rfl⟩⟩

/-- A stopped loop stays stopped and ignores all remaining input. -/
theorem psRun_stopped_absorb (prims : JSPrims) (schema : FileSchema) (mr : Option Nat) :
    ∀ (rows : List (List String)) (st : PSState), st.stopped = true →
      rows.foldl (psStep prims schema mr) st = st := by
  intro rows
  induction rows with
  | nil => intro st _; rfl
  | cons r rs ih =>
    intro st h
    simp only [List.foldl_cons]
    rw [psStep_stopped prims schema mr st r h]
    exact ih st h

/-- Lemma: `promiseOutcome` resolves whenever the tokenizer raised no error. -/
theorem promiseOutcome_none (fin : PSState) :
    promiseOutcome fin none = Except.ok () := by
  unfold promiseOutcome
  split_ifs <;> rfl

/-! ## C3: callback failures are non-fatal -/

/-- The parse state is the same whether or not the callback throws: the
log-carrying fold projects onto the plain fold. -/
theorem psRunLog_fst_aux (prims : JSPrims) (schema : FileSchema) (mr : Option Nat)
    (onRecordThrows : ParsedObject → Nat → Bool) :
    ∀ (rows : List (List String)) (st : PSState) (k : Nat),
      (rows.foldl (psLogStep prims schema mr onRecordThrows) (st, k)).1 =
        rows.foldl (psStep prims schema mr) st := by
  intro rows
  induction rows with
  | nil => intro st k; rfl
  | cons r rs ih =>
    intro st k
    simp only [List.foldl_cons]
    exact ih (psStep prims schema mr st r)
      ((psLogStep prims schema mr onRecordThrows (st, k) r).2)

/-- C3: a throwing (or rejecting) per-record callback is caught and logged;
the parse state — including every subsequent delivery — is identical to the
run whose callback never throws, the promise resolves whenever the
tokenizer raises no structural error, and it is rejected only when the
tokenizer raised one. -/
theorem C3_callback_failures_nonfatal (prims : JSPrims) (schema : FileSchema)
    (mr : Option Nat) (onRecordThrows : ParsedObject → Nat → Bool)
    (rows : List (List String)) (err : Option String) :
    (psRunLog prims schema mr onRecordThrows rows).1 = psRun prims schema mr rows ∧
    (err = none →
      promiseOutcome (psRunLog prims schema mr onRecordThrows rows).1 err = Except.ok ()) ∧
    (∀ e, promiseOutcome (psRunLog prims schema mr onRecordThrows rows).1 err =
        Except.error e → err = some e) := by
  have h1 : (psRunLog prims schema mr onRecordThrows rows).1 = psRun prims schema mr rows :=
    psRunLog_fst_aux prims schema mr onRecordThrows rows psInit 0
  refine ⟨h1, ?_, ?_⟩
  · intro h
    subst h
    exact promiseOutcome_none _
  · intro e he
    cases herr : err with
    | none =>
      rw [herr, promiseOutcome_none] at he
      exact Except.noConfusion he
    | some e2 =>
      rw [herr] at he
      unfold promiseOutcome at he
      by_cases hs : (psRunLog prims schema mr onRecordThrows rows).1.stopped = true
      · rw [if_pos hs] at he
        exact Except.noConfusion he
      · rw [if_neg hs] at he
        have he2 : (Except.error e2 : Except String Unit) = Except.error e := he
        injection he2 with h
        rw [h]

/-- C3 witness: an always-throwing callback on a two-row file leaves the
parse state equal to the non-throwing run, and the promise resolves. -/
theorem C3_callback_failures_nonfatal_witness :
    (psRunLog trivPrims (createDynamicSchema ["a"]) none (fun _ _ => true)
        [["a"], ["1"]]).1 =
      psRun trivPrims (createDynamicSchema ["a"]) none [["a"], ["1"]] ∧
    promiseOutcome (psRunLog trivPrims (createDynamicSchema ["a"]) none (fun _ _ => true)
      [["a"], ["1"]]).1 none = Except.ok () := by
  have h := C3_callback_failures_nonfatal trivPrims (createDynamicSchema ["a"]) none
    (fun _ _ => true) [["a"], ["1"]] none
  exact ⟨h.1, h.2.1 rfl⟩

/-! ## C6: delivered records versus the counting pre-pass -/

/-- Worker characterization of `countRecords` after the header is consumed. -/
theorem countRecords_aux (l : List (List String)) :
    ∀ n : Nat,
      (l.foldl (fun acc _row => if acc.1 then (false, acc.2) else (false, acc.2 + 1))
        (false, n)).2 = n + l.length := by
  induction l with
  | nil => intro n; simp
  | cons r rs ih =>
    intro n
    simp only [List.foldl_cons, List.length_cons]
    have h := ih (n + 1)
    simp only [Bool.false_eq_true, if_false] at h ⊢
    omega

/-- Lemma: `countRecords` skips the header row and counts every remaining row. -/
theorem countRecords_cons (hrow : List String) (rest : List (List String)) :
    countRecords (hrow :: rest) = rest.length := by
  unfold countRecords
  rw [List.foldl_cons]
  exact (countRecords_aux rest 0).trans (Nat.zero_add _)

/-- After the header map is fixed, the number of deliveries over the data
rows is the number of rows whose transform is nonempty. -/
theorem psRun_data_count (prims : JSPrims) (schema : FileSchema) (m : List (String × Nat)) :
    ∀ (rest : List (List String)) (st : PSState),
      st.stopped = false → st.headerMap = some m →
      (rest.foldl (psStep prims schema none) st).delivered.length =
        st.delivered.length +
          rest.countP (fun r => !(transformRow prims r m schema).record.isEmpty) := by
  intro rest
  induction rest with
  | nil => intro st _ _; simp
  | cons r rs ih =>
    intro st h0 hm
    have hcap : capStops none st.recordCount = false := rfl
    simp only [List.foldl_cons, List.countP_cons]
    cases hemp : (transformRow prims r m schema).record.isEmpty with
    | true =>
      rw [psStep_data_empty prims schema none st r m h0 hm hcap hemp]
      rw [ih { st with lineNumber := st.lineNumber + 1, headerMap := some m } h0 rfl]
      simp
    | false =>
      rw [psStep_data_emit prims schema none st r m h0 hm hcap hemp]
      rw [ih ⟨some m, st.lineNumber + 1, st.recordCount + 1, st.stopped,
        st.delivered ++ [((transformRow prims r m schema).record, st.lineNumber + 1)]⟩
        h0 rfl]
      simp [List.length_append]
      omega

/-- C6: with the same tokenizer rows for both passes (same file, same
delimiter) and no record cap, the number of records delivered to the
callback is at most the pre-pass total, with equality exactly when no data
row transforms to an empty record. -/
theorem C6_parsed_le_counted (prims : JSPrims) (schema : FileSchema)
    (hs : schema.hasHeaders ≠ some false) (hrow : List String)
    (rest : List (List String)) :
    (psRun prims schema none (hrow :: rest)).delivered.length ≤
        countRecords (hrow :: rest) ∧
      ((psRun prims schema none (hrow :: rest)).delivered.length =
          countRecords (hrow :: rest) ↔
        ∀ r ∈ rest,
          (transformRow prims r (buildHeaderMap hrow) schema).record.isEmpty = false) := by
  have hstep : psStep prims schema none psInit hrow =
      { psInit with lineNumber := 1, headerMap := some (buildHeaderMap hrow) } :=
    psStep_header prims schema none psInit hrow rfl (hasHeaders_getD_true hs) rfl
  have hrun : psRun prims schema none (hrow :: rest) =
      rest.foldl (psStep prims schema none)
        { psInit with lineNumber := 1, headerMap := some (buildHeaderMap hrow) } := by
    unfold psRun
    rw [List.foldl_cons, hstep]
  have hcount := psRun_data_count prims schema (buildHeaderMap hrow) rest
    { psInit with lineNumber := 1, headerMap := some (buildHeaderMap hrow) } rfl rfl
  rw [hrun, countRecords_cons, hcount]
  simp only [psInit]
  constructor
  · simpa using List.countP_le_length _
  · rw [List.length_nil, Nat.zero_add]
    rw [List.countP_eq_length]
    constructor
    · intro h r hr
      have := h r hr
      simpa [Bool.not_eq_true'] using this
    · intro h r hr
      simpa [Bool.not_eq_true'] using h r hr

/-- C6 witness: two data rows, one of which transforms empty — one delivery
against a pre-pass count of two. -/
theorem C6_parsed_le_counted_witness :
    (psRun trivPrims (createDynamicSchema ["a", "b"]) none
        [["a", "b"], ["1", "2"], ["", ""]]).delivered.length ≤
      countRecords [["a", "b"], ["1", "2"], ["", ""]] :=
  (C6_parsed_le_counted trivPrims (createDynamicSchema ["a", "b"]) (by decide)
    ["a", "b"] [["1", "2"], ["", ""]]).1

/-! ## C7: the maximum-record cap -/

/-- Folding the loop keeps `recordCount ≤ n` and `delivered.length =
recordCount` under cap `n ≥ 1`. -/
theorem psRun_count_le (prims : JSPrims) (schema : FileSchema) (n : Nat) (hn : 1 ≤ n) :
    ∀ (rows : List (List String)) (st : PSState),
      st.recordCount ≤ n → st.delivered.length = st.recordCount →
      (rows.foldl (psStep prims schema (some n)) st).recordCount ≤ n ∧
        (rows.foldl (psStep prims schema (some n)) st).delivered.length =
          (rows.foldl (psStep prims schema (some n)) st).recordCount := by
  intro rows
  induction rows with
  | nil => intro st hle hlen; exact ⟨hle, hlen⟩
  | cons r rs ih =>
    intro st hle hlen
    simp only [List.foldl_cons]
    rcases psStep_count_shape prims schema (some n) st r with ⟨hrc, hdl⟩ | ⟨hcap, hrc, d, hdl⟩
    · exact ih _ (by omega) (by rw [hdl, hrc]; exact hlen)
    · have hlt : st.recordCount < n := by
        by_contra hge
        push_neg at hge
        simp only [capStops, hge, decide_True, Bool.and_true, bne_eq_false_iff_eq] at hcap
        omega
      refine ih _ (by omega) ?_
      rw [hdl, hrc, List.length_append, hlen]
      rfl

/-- C7 (amended): with a cap `n ≥ 1` the callback is invoked at most `n`
times, further input after the stop is ignored, and the promise resolves
whenever no structural error was raised before the stop; a structural
tokenizer error arriving before the cap is reached still rejects the
promise (so the claim's unconditional "resolves without error" holds only
in the error-free case). -/
theorem C7_max_records (prims : JSPrims) (schema : FileSchema) (n : Nat) (hn : 1 ≤ n)
    (rows extra : List (List String)) (err : Option String) :
    (psRun prims schema (some n) rows).delivered.length ≤ n ∧
    (err = none → promiseOutcome (psRun prims schema (some n) rows) err = Except.ok ()) ∧
    ((psRun prims schema (some n) rows).stopped = true →
      psRun prims schema (some n) (rows ++ extra) = psRun prims schema (some n) rows ∧
        promiseOutcome (psRun prims schema (some n) (rows ++ extra)) err =
          Except.ok ()) := by
  have hinv := psRun_count_le prims schema n hn rows psInit (by simp [psInit]) (by simp [psInit])
  refine ⟨le_trans (le_of_eq hinv.2) hinv.1, ?_, ?_⟩
  · intro h
    subst h
    exact promiseOutcome_none _
  · intro hstop
    have habs : psRun prims schema (some n) (rows ++ extra) =
        psRun prims schema (some n) rows := by
      unfold psRun
      rw [List.foldl_append]
      exact psRun_stopped_absorb prims schema (some n) extra _ hstop
    refine ⟨habs, ?_⟩
    rw [habs]
    unfold promiseOutcome
    simp [hstop]

/-- C7 counterexample: a tokenizer structural error arriving before the cap
is reached rejects the promise, refuting the claim's unconditional
"resolves without error" over every byte stream. -/
theorem C7_counterexample :
    promiseOutcome (psRun trivPrims (createDynamicSchema ["a", "b"]) (some 5) [["a", "b"]])
        (some "CSV_QUOTE_NOT_CLOSED") = Except.error "CSV_QUOTE_NOT_CLOSED" ∧
      (5 : Nat) ≥ 1 := by
  exact ⟨rfl, by decide⟩

/-- C7 witness: cap 1 over three data rows delivers at most one record and
the promise resolves. -/
theorem C7_max_records_witness :
    (psRun trivPrims (createDynamicSchema ["a"]) (some 1)
        [["a"], ["1"], ["2"], ["3"]]).delivered.length ≤ 1 ∧
    promiseOutcome (psRun trivPrims (createDynamicSchema ["a"]) (some 1)
      [["a"], ["1"], ["2"], ["3"]]) none = Except.ok () := by
  have h := C7_max_records trivPrims (createDynamicSchema ["a"]) 1 (by decide)
    [["a"], ["1"], ["2"], ["3"]] [] none
  exact ⟨h.1, h.2.1 rfl⟩

/-! ## C1: what a forced delimiter does and does not override -/

/-- Once set, the header map never changes over a step. -/
theorem psStep_headerMap_stable (prims : JSPrims) (schema : FileSchema) (mr : Option Nat)
    (st : PSState) (row : List String) (m : List (String × Nat))
    (hm : st.headerMap = some m) :
    (psStep prims schema mr st row).headerMap = some m := by
  cases hstop : st.stopped with
  | true =>
    rw [psStep_stopped prims schema mr st row hstop]
    exact hm
  | false =>
    have hc : (schema.hasHeaders.getD true && st.headerMap.isNone) = false := by
      simp [hm]
    unfold psStep
    rw [psStepE_nonheader prims schema mr st row hstop hc]
    split_ifs <;> simp [hm]

/-- Once set, the header map never changes over the whole run. -/
theorem psRun_headerMap_stable (prims : JSPrims) (schema : FileSchema) (mr : Option Nat) :
    ∀ (rows : List (List String)) (st : PSState) (m : List (String × Nat)),
      st.headerMap = some m →
      (rows.foldl (psStep prims schema mr) st).headerMap = some m := by
  intro rows
  induction rows with
  | nil => intro st m hm; exact hm
  | cons r rs ih =>
    intro st m hm
    simp only [List.foldl_cons]
    exact ih _ m (psStep_headerMap_stable prims schema mr st r m hm)

/-- C1 counterexample: comma-looking content with delimiter tab forced —
the header names fed to the dynamic schema are the comma-split
`["a", "b"]` computed before the override, not the tab-split `["a,b"]`
the claim requires. -/
theorem C1_counterexample :
    ((applyUserDelimiter (detectFileFormat ⟨"data.csv", some "a,b\nc,d"⟩)
        (some "\t")).sampleHeaders).getD [] = ["a", "b"] ∧
      jsSplit (sampledFirstLine "a,b\nc,d") "\t" = ["a,b"] ∧
      (["a", "b"] : List String) ≠ ["a,b"] := by
  refine ⟨by decide, by decide, by decide⟩

/-- C1 (amended): a forced nonempty delimiter overrides auto-detection for
everything that reads the delimiter field afterwards — the format's
delimiter, the options handed to the tokenizer (hence the pre-pass count
and the stream tokenization), and the header map parseCSVStream builds from
the file's first tokenizer row — but the header sample that feeds the
dynamic schema was already split on the auto-detected delimiter and is left
untouched by the override. -/
theorem C1_forced_delimiter (input : FileInput) (d : String) (hd : d ≠ "")
    (prims : JSPrims) (schema : FileSchema) (hs : schema.hasHeaders ≠ some false)
    (mr : Option Nat) (r : List String) (rest : List (List String)) :
    (applyUserDelimiter (detectFileFormat input) (some d)).delimiter = d ∧
    effectiveDelimiter
      (createParseOptions (applyUserDelimiter (detectFileFormat input) (some d))) = d ∧
    (applyUserDelimiter (detectFileFormat input) (some d)).sampleHeaders =
      (detectFileFormat input).sampleHeaders ∧
    (psRun prims schema mr (r :: rest)).headerMap = some (buildHeaderMap r) := by
  refine ⟨applyUserDelimiter_delimiter _ d hd, ?_, applyUserDelimiter_sampleHeaders _ _, ?_⟩
  · unfold effectiveDelimiter createParseOptions
    simp only [applyUserDelimiter_delimiter _ d hd]
    simp [hd]
  · have hstep : psStep prims schema mr psInit r =
        { psInit with lineNumber := 1, headerMap := some (buildHeaderMap r) } :=
      psStep_header prims schema mr psInit r rfl (hasHeaders_getD_true hs) rfl
    unfold psRun
    rw [List.foldl_cons, hstep]
    exact psRun_headerMap_stable prims schema mr rest _ _ rfl

/-- C1 witness: delimiter tab forced on comma-looking content; the
effective tokenizer delimiter is tab and the header map is built from the
first tab-tokenized row. -/
theorem C1_forced_delimiter_witness :
    (applyUserDelimiter (detectFileFormat ⟨"data.csv", some "a,b\nc,d"⟩)
        (some "\t")).delimiter = "\t" ∧
      (psRun trivPrims (createDynamicSchema ["a", "b"]) none
        [["a,b"], ["c,d"]]).headerMap = some (buildHeaderMap ["a,b"]) := by
  have h := C1_forced_delimiter ⟨"data.csv", some "a,b\nc,d"⟩ "\t" (by decide)
    trivPrims (createDynamicSchema ["a", "b"]) (by decide) none ["a,b"] [["c,d"]]
  exact ⟨h.1, h.2.2.2⟩

/-! ## C2: batch ceiling and flush clearing -/

/-- An in-loop store write always leaves the batch empty (both the success
and the catch branch reassign `batch = []`). -/
theorem storeFlushInLoop_batch (dbOk : Nat → Bool) (st : JobBatchState) :
    (storeFlushInLoop dbOk st).batch = [] := by
  unfold storeFlushInLoop
  dsimp only
  split_ifs <;> rfl

/-- An in-loop store write appends the observation `0`. -/
theorem storeFlushInLoop_obs (dbOk : Nat → Bool) (st : JobBatchState) :
    (storeFlushInLoop dbOk st).obs = st.obs ++ [0] := by
  unfold storeFlushInLoop
  dsimp only
  split_ifs <;> rfl

/-- An in-loop store write records one flush event whose after-buffer is
empty, whatever the write outcome. -/
theorem storeFlushInLoop_flushes_eq (dbOk : Nat → Bool) (st : JobBatchState) :
    (storeFlushInLoop dbOk st).flushes = st.flushes ++
      [{ payload := st.batch, succeeded := dbOk st.flushes.length, after := [],
         inLoop := true }] := by
  unfold storeFlushInLoop
  dsimp only
  split_ifs <;> rfl

/-- In-loop store writes preserve the flush-clearing invariant. -/
theorem storeFlushInLoop_flushes_inv (dbOk : Nat → Bool) (st : JobBatchState)
    (h3 : ∀ f ∈ st.flushes, f.inLoop = true → f.after = []) :
    ∀ f ∈ (storeFlushInLoop dbOk st).flushes, f.inLoop = true → f.after = [] := by
  intro f hf hin
  rw [storeFlushInLoop_flushes_eq] at hf
  rcases List.mem_append.mp hf with h | h
  · exact h3 f h hin
  · rw [List.mem_singleton] at h
    subst h
    rfl

/-- One callback invocation keeps every invariant: the batch and every
observed length stay at or below the hard ceiling, and every in-loop flush
leaves an empty buffer. -/
theorem recordCallbackStep_inv (useDb : Bool) (batchSize : Nat) (hbs : 1 ≤ batchSize)
    (dbOk : Nat → Bool) (timeDue : Bool) (st : JobBatchState) (record : ParsedObject)
    (h1 : st.batch.length ≤ MAX_BATCH_SIZE batchSize)
    (h2 : ∀ x ∈ st.obs, x ≤ MAX_BATCH_SIZE batchSize)
    (h3 : ∀ f ∈ st.flushes, f.inLoop = true → f.after = []) :
    (recordCallbackStep useDb batchSize dbOk timeDue st record).batch.length ≤
        MAX_BATCH_SIZE batchSize ∧
      (∀ x ∈ (recordCallbackStep useDb batchSize dbOk timeDue st record).obs,
        x ≤ MAX_BATCH_SIZE batchSize) ∧
      ∀ f ∈ (recordCallbackStep useDb batchSize dbOk timeDue st record).flushes,
        f.inLoop = true → f.after = [] := by
  have hmax2 : 2 ≤ MAX_BATCH_SIZE batchSize := by
    unfold MAX_BATCH_SIZE
    omega
  -- entry stage
  have e1 : (cbEntry st).batch = st.batch ∧
      (cbEntry st).obs = st.obs ++ [st.batch.length] ∧
      (cbEntry st).flushes = st.flushes := ⟨rfl, rfl, rfl⟩
  have h2a : ∀ x ∈ (cbEntry st).obs, x ≤ MAX_BATCH_SIZE batchSize := by
    intro x hx
    rw [e1.2.1] at hx
    rcases List.mem_append.mp hx with h | h
    · exact h2 x h
    · rw [List.mem_singleton] at h
      subst h
      exact h1
  have h3a : ∀ f ∈ (cbEntry st).flushes, f.inLoop = true → f.after = [] := by
    rw [e1.2.2]
    exact h3
  -- safety stage
  have hsafe : (cbSafety useDb batchSize dbOk (cbEntry st)).batch.length + 1 ≤
        MAX_BATCH_SIZE batchSize ∧
      (∀ x ∈ (cbSafety useDb batchSize dbOk (cbEntry st)).obs,
        x ≤ MAX_BATCH_SIZE batchSize) ∧
      ∀ f ∈ (cbSafety useDb batchSize dbOk (cbEntry st)).flushes,
        f.inLoop = true → f.after = [] := by
    unfold cbSafety
    split_ifs with hc hdb
    · rw [storeFlushInLoop_batch, storeFlushInLoop_obs]
      refine ⟨?_, ?_, storeFlushInLoop_flushes_inv dbOk _ h3a⟩
      · simp only [List.length_nil]
        exact le_trans (by omega) hmax2
      · intro x hx
        rcases List.mem_append.mp hx with h | h
        · exact h2a x h
        · rw [List.mem_singleton] at h
          subst h
          omega
    · refine ⟨?_, ?_, h3a⟩
      · show ([] : List ParsedObject).length + 1 ≤ MAX_BATCH_SIZE batchSize
        simp only [List.length_nil]
        exact le_trans (by omega) hmax2
      · intro x hx
        rcases List.mem_append.mp hx with h | h
        · exact h2a x h
        · rw [List.mem_singleton] at h
          subst h
          simp
    · push_neg at hc
      rw [e1.1] at hc
      refine ⟨?_, h2a, h3a⟩
      show (cbEntry st).batch.length + 1 ≤ MAX_BATCH_SIZE batchSize
      rw [e1.1]
      omega
  -- push stage
  have hpush : (cbPush (cbSafety useDb batchSize dbOk (cbEntry st)) record).batch.length ≤
        MAX_BATCH_SIZE batchSize ∧
      (∀ x ∈ (cbPush (cbSafety useDb batchSize dbOk (cbEntry st)) record).obs,
        x ≤ MAX_BATCH_SIZE batchSize) ∧
      ∀ f ∈ (cbPush (cbSafety useDb batchSize dbOk (cbEntry st)) record).flushes,
        f.inLoop = true → f.after = [] := by
    have hb : (cbPush (cbSafety useDb batchSize dbOk (cbEntry st)) record).batch.length =
        (cbSafety useDb batchSize dbOk (cbEntry st)).batch.length + 1 := by
      unfold cbPush
      simp
    refine ⟨by rw [hb]; exact hsafe.1, ?_, hsafe.2.2⟩
    intro x hx
    have hobs : (cbPush (cbSafety useDb batchSize dbOk (cbEntry st)) record).obs =
        (cbSafety useDb batchSize dbOk (cbEntry st)).obs ++
          [(cbSafety useDb batchSize dbOk (cbEntry st)).batch.length + 1] := by
      unfold cbPush
      simp
    rw [hobs] at hx
    rcases List.mem_append.mp hx with h | h
    · exact hsafe.2.1 x h
    · rw [List.mem_singleton] at h
      subst h
      exact hsafe.1
  -- size/time flush stage
  unfold recordCallbackStep cbFlush
  dsimp only
  split_ifs with hc
  · rw [storeFlushInLoop_batch, storeFlushInLoop_obs]
    refine ⟨by simp, ?_, storeFlushInLoop_flushes_inv dbOk _ hpush.2.2⟩
    intro x hx
    rcases List.mem_append.mp hx with h | h
    · exact hpush.2.1 x h
    · rw [List.mem_singleton] at h
      subst h
      omega
  · exact hpush

/-- The tail flush observes a bounded batch and appends only an
out-of-loop event. -/
theorem tailFlush_inv (useDb : Bool) (dbOk : Nat → Bool) (st : JobBatchState)
    (bound : Nat) (h1 : st.batch.length ≤ bound)
    (h2 : ∀ x ∈ st.obs, x ≤ bound)
    (h3 : ∀ f ∈ st.flushes, f.inLoop = true → f.after = []) :
    (∀ x ∈ (tailFlush useDb dbOk st).obs, x ≤ bound) ∧
      ∀ f ∈ (tailFlush useDb dbOk st).flushes, f.inLoop = true → f.after = [] := by
  unfold tailFlush
  split_ifs with hc
  · constructor
    · intro x hx
      simp only at hx
      rcases List.mem_append.mp hx with h | h
      · exact h2 x h
      · rw [List.mem_singleton] at h
        subst h
        exact h1
    · intro f hf hin
      simp only at hf
      rcases List.mem_append.mp hf with h | h
      · exact h3 f h hin
      · rw [List.mem_singleton] at h
        subst h
        exact absurd hin (by simp)
  · exact ⟨h2, h3⟩

/-- The callback invariant folded over any record sequence. -/
theorem runJobBatch_fold_inv (useDb : Bool) (batchSize : Nat) (hbs : 1 ≤ batchSize)
    (dbOk : Nat → Bool) :
    ∀ (records : List (ParsedObject × Bool)) (st : JobBatchState),
      st.batch.length ≤ MAX_BATCH_SIZE batchSize →
      (∀ x ∈ st.obs, x ≤ MAX_BATCH_SIZE batchSize) →
      (∀ f ∈ st.flushes, f.inLoop = true → f.after = []) →
      (records.foldl (fun s p => recordCallbackStep useDb batchSize dbOk p.2 s p.1)
          st).batch.length ≤ MAX_BATCH_SIZE batchSize ∧
        (∀ x ∈ (records.foldl
            (fun s p => recordCallbackStep useDb batchSize dbOk p.2 s p.1) st).obs,
          x ≤ MAX_BATCH_SIZE batchSize) ∧
        ∀ f ∈ (records.foldl
            (fun s p => recordCallbackStep useDb batchSize dbOk p.2 s p.1) st).flushes,
          f.inLoop = true → f.after = [] := by
  intro records
  induction records with
  | nil => intro st h1 h2 h3; exact ⟨h1, h2, h3⟩
  | cons p ps ih =>
    intro st h1 h2 h3
    simp only [List.foldl_cons]
    have hstep := recordCallbackStep_inv useDb batchSize hbs dbOk p.2 st p.1 h1 h2 h3
    exact ih _ hstep.1 hstep.2.1 hstep.2.2

/-- C2 counterexample: one leftover record, database enabled, successful
writes — after the final tail flush the batch buffer still holds the
record, refuting "the buffer is empty after every flush call, including the
final tail flush". -/
theorem C2_counterexample :
    ((runJobBatch true 2 (fun _ => true)
        [([("id", JSValue.str "1")], false)]).flushes.all
      (fun f => f.after.isEmpty)) = false := by
  decide

/-- C2 (amended): at every observation point the batch holds at most
`2 × BATCH_SIZE` records, and the buffer is empty immediately after every
flush issued from inside the per-record callback, whether the store write
succeeded or threw; the final tail flush, however, does not clear the
buffer variable (the job ends right after). -/
theorem C2_batch_invariant (useDb : Bool) (batchSize : Nat) (hbs : 1 ≤ batchSize)
    (dbOk : Nat → Bool) (records : List (ParsedObject × Bool)) :
    (∀ x ∈ (runJobBatch useDb batchSize dbOk records).obs,
        x ≤ MAX_BATCH_SIZE batchSize) ∧
      ∀ f ∈ (runJobBatch useDb batchSize dbOk records).flushes,
        f.inLoop = true → f.after = [] := by
  have hfold := runJobBatch_fold_inv useDb batchSize hbs dbOk records jobBatchInit
    (by simp [jobBatchInit]) (by simp [jobBatchInit]) (by simp [jobBatchInit])
  unfold runJobBatch
  exact tailFlush_inv useDb dbOk _ (MAX_BATCH_SIZE batchSize) hfold.1 hfold.2.1 hfold.2.2

/-- C2 witness: the amended invariant applied to a concrete no-database run
whose batch reaches the hard ceiling of 4 = 2 × 2. -/
theorem C2_batch_invariant_witness : (4 : Nat) ≤ MAX_BATCH_SIZE 2 :=
  (C2_batch_invariant false 2 (by decide) (fun _ => true)
    (List.replicate 10 ([("id", JSValue.str "1")], false))).1 4 (by decide)

/-! ## C4: registry eviction timing -/

/-- Time of a write event. -/
theorem RegEvent.time_write (u : Nat) : (RegEvent.write u).time = u := rfl

/-- Time of the eviction timer. -/
theorem RegEvent.time_evict (u : Nat) : (RegEvent.evictTimer u).time = u := rfl

/-- Filtering an all-writes timeline by time is filtering the times. -/
theorem filter_time_map_write (us : List Nat) (t : Nat) :
    (us.map RegEvent.write).filter (fun e => e.time ≤ t) =
      (us.filter (fun u => u ≤ t)).map RegEvent.write := by
  induction us with
  | nil => rfl
  | cons u us ih =>
    simp only [List.map_cons, List.filter_cons, RegEvent.time_write]
    by_cases h : u ≤ t <;> simp [h, ih]

/-- A nonempty run of writes leaves the entry present. -/
theorem foldl_applyRegEvent_writes (us : List Nat) :
    (us.map RegEvent.write).foldl applyRegEvent true = true := by
  induction us with
  | nil => rfl
  | cons u us ih => simpa using ih

/-- Writes contribute no eviction events. -/
theorem countP_isEvict_map_write (us : List Nat) :
    (us.map RegEvent.write).countP RegEvent.isEvict = 0 := by
  induction us with
  | nil => rfl
  | cons u us ih => simp [List.countP_cons, RegEvent.isEvict, ih]

/-- The timeline of a job contains exactly one eviction event: the timer
scheduled at creation. -/
theorem regTrace_evict_count (t0 ttl : Nat) (updates : List Nat) :
    (regTrace t0 ttl updates).countP RegEvent.isEvict = 1 := by
  unfold regTrace
  rw [List.countP_cons, List.countP_append, List.countP_cons,
    countP_isEvict_map_write, countP_isEvict_map_write]
  rfl

/-- C4 counterexample: job created at 0, terminal at 1000.  The claim puts
eviction at 1000 + JOB_RESULT_TTL and promises that a poll at 3600000
(before that deadline) finds the entry; the code's timer — scheduled at
creation — has already deleted it. -/
theorem C4_counterexample :
    statusPollFinds 0 JOB_RESULT_TTL [1000] 3600000 = false ∧
      (3600000 : Nat) < 1000 + JOB_RESULT_TTL := by
  exact ⟨by decide, by decide⟩

/-- C4 (amended): the eviction timer is scheduled once, at job creation,
and fires `JOB_RESULT_TTL` (3 600 000 ms) after creation — not after the
terminal state.  For a job whose status updates all happen before that
moment, a poll strictly before creation + TTL finds the entry and any poll
at or after it receives not-found. -/
theorem C4_registry_eviction (t0 t : Nat) (updates : List Nat)
    (hup : ∀ u ∈ updates, t0 ≤ u ∧ u < t0 + JOB_RESULT_TTL) :
    (regTrace t0 JOB_RESULT_TTL updates).countP RegEvent.isEvict = 1 ∧
      (t0 ≤ t → t < t0 + JOB_RESULT_TTL →
        statusPollFinds t0 JOB_RESULT_TTL updates t = true) ∧
      (t0 + JOB_RESULT_TTL ≤ t →
        statusPollFinds t0 JOB_RESULT_TTL updates t = false) := by
  have hpost : updates.filter (fun u => ¬ u < t0 + JOB_RESULT_TTL) = [] := by
    rw [List.filter_eq_nil_iff]
    intro u hu
    simpa using (hup u hu).2
  refine ⟨regTrace_evict_count _ _ _, ?_, ?_⟩
  · intro h1 h2
    have hc1 : (decide (t0 ≤ t)) = true := by simpa using h1
    have hc2 : (decide (t0 + JOB_RESULT_TTL ≤ t)) = false := by
      simpa using Nat.not_le.mpr h2
    unfold statusPollFinds presentAt regTrace
    rw [hpost]
    simp only [List.map_nil, List.filter_cons, List.filter_append, List.filter_nil,
      filter_time_map_write, RegEvent.time_write, RegEvent.time_evict, hc1, hc2,
      if_true, if_false, List.append_nil]
    simp only [Bool.false_eq_true, if_false, List.append_nil]
    rw [List.foldl_cons]
    exact foldl_applyRegEvent_writes _
  · intro h3
    have hpre : updates.filter (fun u => u < t0 + JOB_RESULT_TTL) = updates := by
      rw [List.filter_eq_self]
      intro u hu
      simpa using (hup u hu).2
    have hpre2 : updates.filter (fun u => u ≤ t) = updates := by
      rw [List.filter_eq_self]
      intro u hu
      have h4 := (hup u hu).2
      simp only [decide_eq_true_eq]
      omega
    have hc1 : (decide (t0 ≤ t)) = true := by
      simp only [decide_eq_true_eq]
      omega
    have hc2 : (decide (t0 + JOB_RESULT_TTL ≤ t)) = true := by simpa using h3
    unfold statusPollFinds presentAt regTrace
    rw [hpost, hpre]
    simp only [List.map_nil, List.filter_cons, List.filter_append, List.filter_nil,
      filter_time_map_write, RegEvent.time_write, RegEvent.time_evict, hpre2, hc1, hc2,
      if_true, List.append_nil]
    rw [show RegEvent.write t0 :: (updates.map RegEvent.write ++
        RegEvent.evictTimer (t0 + JOB_RESULT_TTL) :: ([] : List RegEvent)) =
        (RegEvent.write t0 :: updates.map RegEvent.write) ++
          [RegEvent.evictTimer (t0 + JOB_RESULT_TTL)] from by simp]
    rw [List.foldl_append]
    rfl

/-- C4 witness: the amended timing applied at concrete instants — found one
millisecond before creation + TTL, gone exactly at creation + TTL. -/
theorem C4_registry_eviction_witness :
    statusPollFinds 0 JOB_RESULT_TTL [1000] 3599999 = true ∧
      statusPollFinds 0 JOB_RESULT_TTL [1000] 3600000 = false := by
  have ha := C4_registry_eviction 0 3599999 [1000] (by decide)
  have hb := C4_registry_eviction 0 3600000 [1000] (by decide)
  exact ⟨ha.2.1 (by decide) (by decide), hb.2.2 (by decide)⟩

end DualFileParser
